import Mathlib

/-!
Verification of the alloy render-artifact build/cache/execution engine
(`render.go`), shallowly embedded in Lean 4.

Conventions of the embedding:
* Go maps are modelled either as association lists (`List (key × value)`)
  when the code iterates or mutates single bindings, or as functions
  `String → Option _` for the top-level cache table.
* `os.Stat` is modelled by a filesystem oracle `String → Option fileStamp`
  (`none` = stat error / missing file).
* Values left at their Go zero value are the empty string / empty list.
-/

/-- Model of Go `fileStamp` (render.go): the recorded fingerprint of one
dependency file — modification time and byte size.  `os.FileInfo` results
are modelled by the same pair, since `cacheStale` only reads those two
fields. -/
structure fileStamp where
  modTime : Int
  size : Int
deriving DecidableEq

/-- A filesystem oracle: `os.Stat` by absolute path.  `none` models a stat
error (file missing). -/
def FileSystem : Type := String → Option fileStamp

/-- Model of Go `bundleCacheEntry` (render.go): the three artifacts, the
per-mount-point client scripts, the dependency fingerprints and the
`prebuilt` (pinned) flag.  `clientByID` and `deps` are Go maps, modelled
as association lists. -/
structure bundleCacheEntry where
  serverJS : String
  clientByID : List (String × String)
  css : String
  deps : List (String × fileStamp)
  prebuilt : Bool
deriving DecidableEq

/-- The bundle cache table `bundleCache.entries : map[string]*bundleCacheEntry`. -/
def CacheTable : Type := String → Option bundleCacheEntry

/-- Go map read with zero-value default: `entry.clientByID[rootID]` yields
`""` when the key is absent. -/
def lookupClient (m : List (String × String)) (k : String) : String :=
  match m.find? (fun kv => kv.fst = k) with
  | some kv => kv.snd
  | none => ""

/-- Go map write `m[k] = v` on an association list: replace the binding if
present, else add it. -/
def mapInsert (m : List (String × String)) (k v : String) : List (String × String) :=
  match m with
  | [] => [(k, v)]
  | kv :: rest =>
      if kv.fst = k then (k, v) :: rest else kv :: mapInsert rest k v

/-- Go map write on the top-level cache table. -/
def cacheInsert (cache : CacheTable) (k : String) (e : bundleCacheEntry) : CacheTable :=
  fun p => if p = k then some e else cache p

/-- Model of `cacheStale` (render.go:4355): an empty stamp set is stale;
otherwise stale iff some recorded path is missing, or its current
modification time or size differs from the recorded stamp. -/
def cacheStale (fs : FileSystem) (stamps : List (String × fileStamp)) : Bool :=
  if stamps.isEmpty then true
  else stamps.any (fun ps =>
    match fs ps.fst with
    | none => true
    | some info =>
        !(decide (info.modTime = ps.snd.modTime) && decide (info.size = ps.snd.size)))

/-- Model of `entryStale` (render.go:4156): a missing entry is stale, a
prebuilt (pinned) entry is never stale, otherwise staleness is computed
from the fingerprints. -/
def entryStale (fs : FileSystem) (entry : Option bundleCacheEntry) : Bool :=
  match entry with
  | none => true
  | some e => if e.prebuilt then false else cacheStale fs e.deps

/-- Model of `readBundlesFromCache` (render.go:4118): return the three
artifacts unless the entry is missing or stale. -/
def readBundlesFromCache (fs : FileSystem) (cache : CacheTable)
    (path rootID : String) : String × String × String :=
  match cache path with
  | none => ("", "", "")
  | some e =>
      if entryStale fs (some e) then ("", "", "")
      else (e.serverJS, lookupClient e.clientByID rootID, e.css)

/-- Model of `storeBundles` (render.go:4134): create a fresh entry when the
slot is empty or stale, otherwise add this mount point's client script and
refresh deps/prebuilt in place. -/
def storeBundles (fs : FileSystem) (cache : CacheTable)
    (path rootID serverJS clientJS css : String)
    (deps : List (String × fileStamp)) : CacheTable :=
  match cache path with
  | none =>
      cacheInsert cache path
        { serverJS := serverJS, clientByID := [(rootID, clientJS)],
          css := css, deps := deps, prebuilt := false }
  | some e =>
      if entryStale fs (some e) then
        cacheInsert cache path
          { serverJS := serverJS, clientByID := [(rootID, clientJS)],
            css := css, deps := deps, prebuilt := false }
      else
        cacheInsert cache path
          { e with clientByID := mapInsert e.clientByID rootID clientJS,
                   deps := deps, prebuilt := false }

/-- Model of `RegisterPrebuiltBundle` (render.go:2352).  `absResult` is the
oracle for `filepath.Abs(componentPath)`.  Returns the updated cache table
or the validation / path-resolution error. -/
def RegisterPrebuiltBundle (fs : FileSystem) (cache : CacheTable)
    (absResult : Except String String)
    (componentPath rootID serverJS clientJS css : String) :
    Except String CacheTable :=
  if componentPath = "" || rootID = "" then
    .error "component path and root id required"
  else if serverJS = "" || clientJS = "" || css = "" then
    .error "prebuilt assets cannot be empty"
  else
    match absResult with
    | .error e => .error ("resolve path: " ++ e)
    | .ok absPath =>
        match cache absPath with
        | none =>
            .ok (cacheInsert cache absPath
              { serverJS := serverJS, clientByID := [(rootID, clientJS)],
                css := css, deps := [], prebuilt := true })
        | some e =>
            if entryStale fs (some e) then
              .ok (cacheInsert cache absPath
                { serverJS := serverJS, clientByID := [(rootID, clientJS)],
                  css := css, deps := [], prebuilt := true })
            else
              .ok (cacheInsert cache absPath
                { e with serverJS := serverJS, css := css,
                         clientByID := mapInsert e.clientByID rootID clientJS,
                         prebuilt := true, deps := [] })

/-- The client script recorded in the cache for a mount point (Go zero
value `""` when the entry or the binding is absent). -/
def recordedClient (cache : CacheTable) (path rootID : String) : String :=
  match cache path with
  | some e => lookupClient e.clientByID rootID
  | none => ""

lemma lookupClient_insert_self (m : List (String × String)) (k v : String) :
    lookupClient (mapInsert m k v) k = v := by
  induction m with
  | nil => simp [mapInsert, lookupClient, List.find?]
  | cons kv rest ih =>
      by_cases h : kv.fst = k
      · simp [mapInsert, h, lookupClient, List.find?]
      · simp only [mapInsert, if_neg h]
        simp only [lookupClient, List.find?] at ih ⊢
        simp [h, ih]

lemma lookupClient_insert_ne (m : List (String × String)) (k v k' : String)
    (h : k' ≠ k) :
    lookupClient (mapInsert m k v) k' = lookupClient m k' := by
  induction m with
  | nil => simp [mapInsert, lookupClient, List.find?, Ne.symm h]
  | cons kv rest ih =>
      by_cases hk : kv.fst = k
      · subst hk
        simp [mapInsert, lookupClient, List.find?, Ne.symm h]
      · simp only [mapInsert, if_neg hk]
        by_cases hk' : kv.fst = k'
        · simp [lookupClient, List.find?, hk']
        · simp only [lookupClient, List.find?] at ih ⊢
          simp [hk', ih]

lemma stampFresh_iff (fs : FileSystem) (p : String) (st : fileStamp) :
    ((match fs p with
      | none => true
      | some info =>
          !(decide (info.modTime = st.modTime) && decide (info.size = st.size))) = false)
    ↔ fs p = some st := by
  cases hf : fs p with
  | none => simp
  | some info =>
      obtain ⟨m, s⟩ := info
      obtain ⟨m', s'⟩ := st
      simp [fileStamp.mk.injEq]

lemma cacheStale_false_iff (fs : FileSystem) (stamps : List (String × fileStamp)) :
    cacheStale fs stamps = false ↔
      stamps ≠ [] ∧ ∀ ps ∈ stamps, fs ps.fst = some ps.snd := by
  unfold cacheStale
  by_cases he : stamps.isEmpty
  · simp [he, List.isEmpty_iff.mp he]
  · rw [if_neg he]
    simp only [List.any_eq_false, Bool.not_eq_true]
    constructor
    · intro h
      exact ⟨by simpa [List.isEmpty_iff] using he,
             fun ps hps => (stampFresh_iff fs ps.1 ps.2).mp (h ps hps)⟩
    · rintro ⟨-, h⟩
      exact fun ps hps => (stampFresh_iff fs ps.1 ps.2).mpr (h ps hps)

/-- C1 (amended): `readBundlesFromCache` returns empty unless an entry
exists and is not stale, where staleness of a non-pinned entry means: the
fingerprint set is empty, or some fingerprinted file is missing, or its
current modification time or byte size differs from the recorded
fingerprint.  For every non-pinned entry with a NON-EMPTY fingerprint set
none of whose recorded fingerprints is missing or differing, the read
returns the stored artifacts. -/
theorem C1_cache_read_semantics (fs : FileSystem) (cache : CacheTable)
    (path rootID : String) :
    ((cache path = none ∨ entryStale fs (cache path) = true) →
      readBundlesFromCache fs cache path rootID = ("", "", "")) ∧
    (∀ e : bundleCacheEntry, cache path = some e → e.prebuilt = false →
      e.deps ≠ [] → (∀ ps ∈ e.deps, fs ps.fst = some ps.snd) →
      readBundlesFromCache fs cache path rootID =
        (e.serverJS, lookupClient e.clientByID rootID, e.css)) := by
  constructor
  · intro h
    unfold readBundlesFromCache
    cases hc : cache path with
    | none => rfl
    | some e =>
        rcases h with h | h
        · rw [hc] at h; exact absurd h (by simp)
        · rw [hc] at h
          simp [h]
  · intro e hc hpre hne hmatch
    unfold readBundlesFromCache
    rw [hc]
    have hstale : entryStale fs (some e) = false := by
      simp only [entryStale, hpre, Bool.false_eq_true, if_false]
      exact (cacheStale_false_iff fs e.deps).mpr ⟨hne, hmatch⟩
    simp [hstale]

/-- C1 witness: a concrete non-pinned entry with one matching fingerprint
is served from the cache. -/
theorem C1_cache_read_semantics_witness :
    readBundlesFromCache
      (fun p => if p = "/app/dep.ts" then some { modTime := 5, size := 7 } else none)
      (fun p => if p = "/app/comp.tsx" then
        some { serverJS := "srv", clientByID := [("root", "cli")], css := "sty",
               deps := [("/app/dep.ts", { modTime := 5, size := 7 })],
               prebuilt := false }
        else none)
      "/app/comp.tsx" "root" = ("srv", "cli", "sty") :=
  (C1_cache_read_semantics
      (fun p => if p = "/app/dep.ts" then some { modTime := 5, size := 7 } else none)
      (fun p => if p = "/app/comp.tsx" then
        some { serverJS := "srv", clientByID := [("root", "cli")], css := "sty",
               deps := [("/app/dep.ts", { modTime := 5, size := 7 })],
               prebuilt := false }
        else none)
      "/app/comp.tsx" "root").2
    { serverJS := "srv", clientByID := [("root", "cli")], css := "sty",
      deps := [("/app/dep.ts", { modTime := 5, size := 7 })], prebuilt := false }
    (by decide) (by decide) (by decide) (by decide)

/-- C1 counterexample: a non-pinned entry whose fingerprint set is empty
has no missing or differing recorded fingerprint, yet the read returns
empty rather than the stored artifacts — the code treats an empty
fingerprint set as stale (`cacheStale` returns true on an empty map). -/
theorem C1_counterexample :
    readBundlesFromCache (fun _ => none)
      (fun p => if p = "/app/comp.tsx" then
        some { serverJS := "srv", clientByID := [("root", "cli")], css := "sty",
               deps := [], prebuilt := false }
        else none)
      "/app/comp.tsx" "root" = ("", "", "") ∧
    (("", "", "") : String × String × String) ≠ ("srv", "cli", "sty") := by
  constructor
  · rfl
  · decide

/-- C2: after `RegisterPrebuiltBundle` succeeds with non-empty inputs, the
stored entry is pinned: for EVERY filesystem state afterwards (arbitrary
mutation or deletion of files on disk), the entry is never judged stale by
fingerprint comparison, and a read for the registered mount point returns
exactly the originally pinned server script, client script and
stylesheet. -/
theorem C2_pinned_entry_immune (fs : FileSystem) (cache : CacheTable)
    (componentPath rootID serverJS clientJS css absPath : String)
    (hc : componentPath ≠ "") (hr : rootID ≠ "") (hs : serverJS ≠ "")
    (hcl : clientJS ≠ "") (hx : css ≠ "") :
    ∃ cache' : CacheTable,
      RegisterPrebuiltBundle fs cache (.ok absPath)
        componentPath rootID serverJS clientJS css = .ok cache' ∧
      ∀ fs' : FileSystem,
        entryStale fs' (cache' absPath) = false ∧
        readBundlesFromCache fs' cache' absPath rootID =
          (serverJS, clientJS, css) := by
  unfold RegisterPrebuiltBundle
  rw [if_neg (by simp [hc, hr]), if_neg (by simp [hs, hcl, hx])]
  cases hcc : cache absPath with
  | none =>
      simp only [hcc]
      refine ⟨_, rfl, fun fs' => ?_⟩
      have hentry : cacheInsert cache absPath
          { serverJS := serverJS, clientByID := [(rootID, clientJS)],
            css := css, deps := [], prebuilt := true } absPath =
          some { serverJS := serverJS, clientByID := [(rootID, clientJS)],
                 css := css, deps := [], prebuilt := true } := by
        simp [cacheInsert]
      constructor
      · rw [hentry]; rfl
      · unfold readBundlesFromCache
        rw [hentry]
        simp [entryStale, lookupClient, List.find?]
  | some e =>
      by_cases hst : entryStale fs (some e) = true
      · simp only [hcc]
        rw [if_pos hst]
        refine ⟨_, rfl, fun fs' => ?_⟩
        have hentry : cacheInsert cache absPath
            { serverJS := serverJS, clientByID := [(rootID, clientJS)],
              css := css, deps := [], prebuilt := true } absPath =
            some { serverJS := serverJS, clientByID := [(rootID, clientJS)],
                   css := css, deps := [], prebuilt := true } := by
          simp [cacheInsert]
        constructor
        · rw [hentry]; rfl
        · unfold readBundlesFromCache
          rw [hentry]
          simp [entryStale, lookupClient, List.find?]
      · simp only [hcc]
        rw [if_neg hst]
        refine ⟨_, rfl, fun fs' => ?_⟩
        have hentry : cacheInsert cache absPath
            { e with serverJS := serverJS, css := css,
                     clientByID := mapInsert e.clientByID rootID clientJS,
                     prebuilt := true, deps := [] } absPath =
            some { e with serverJS := serverJS, css := css,
                          clientByID := mapInsert e.clientByID rootID clientJS,
                          prebuilt := true, deps := [] } := by
          simp [cacheInsert]
        constructor
        · rw [hentry]; rfl
        · unfold readBundlesFromCache
          rw [hentry]
          simp [entryStale, lookupClient_insert_self]

/-- C2 witness: registering a pinned bundle over an empty cache, then
reading it back under a filesystem where every file has been deleted. -/
theorem C2_pinned_entry_immune_witness :
    ∃ cache' : CacheTable,
      RegisterPrebuiltBundle (fun _ => none) (fun _ => none) (.ok "/app/comp.tsx")
        "comp.tsx" "root" "srv" "cli" "sty" = .ok cache' ∧
      ∀ fs' : FileSystem,
        entryStale fs' ( cache' "/app/comp.tsx") = false ∧
        readBundlesFromCache fs' cache' "/app/comp.tsx" "root" =
          ("srv", "cli", "sty") :=
  C2_pinned_entry_immune (fun _ => none) (fun _ => none)
    "comp.tsx" "root" "srv" "cli" "sty" "/app/comp.tsx"
    (by decide) (by decide) (by decide) (by decide) (by decide)

lemma read_server_css_shared (fs : FileSystem) (cache : CacheTable)
    (path m1 m2 : String) :
    (readBundlesFromCache fs cache path m1).1 =
      (readBundlesFromCache fs cache path m2).1 ∧
    (readBundlesFromCache fs cache path m1).2.2 =
      (readBundlesFromCache fs cache path m2).2.2 := by
  unfold readBundlesFromCache
  cases cache path with
  | none => exact ⟨rfl, rfl⟩
  | some e =>
      by_cases h : entryStale fs (some e) = true
      · simp [h]
      · simp [h]

/-- C4 (amended): for a component whose cache entry already exists AND is
not stale, storing or replacing the client script for mount point `a`
(via `storeBundles` or `RegisterPrebuiltBundle`) leaves the client script
recorded for a distinct mount point `b` unchanged, and the entry keeps a
single server script and stylesheet shared by every mount point.  (When
the existing entry IS stale, both operations replace the whole entry and
`b`'s client script is dropped — see the counterexample.) -/
theorem C4_client_scripts_isolated (fs : FileSystem) (cache : CacheTable)
    (path a b serverJS clientJS css : String)
    (deps : List (String × fileStamp)) (e : bundleCacheEntry)
    (hcc : cache path = some e) (hfresh : entryStale fs (some e) = false)
    (hab : b ≠ a) :
    (recordedClient (storeBundles fs cache path a serverJS clientJS css deps) path b
        = recordedClient cache path b) ∧
    (∀ (componentPath : String) (cache' : CacheTable),
        RegisterPrebuiltBundle fs cache (.ok path)
          componentPath a serverJS clientJS css = .ok cache' →
        recordedClient cache' path b = recordedClient cache path b) ∧
    (∀ (fs' : FileSystem) (m1 m2 : String),
        (readBundlesFromCache fs'
            (storeBundles fs cache path a serverJS clientJS css deps) path m1).1 =
          (readBundlesFromCache fs'
            (storeBundles fs cache path a serverJS clientJS css deps) path m2).1 ∧
        (readBundlesFromCache fs'
            (storeBundles fs cache path a serverJS clientJS css deps) path m1).2.2 =
          (readBundlesFromCache fs'
            (storeBundles fs cache path a serverJS clientJS css deps) path m2).2.2) := by
  refine ⟨?_, ?_, ?_⟩
  · unfold storeBundles
    simp only [hcc]
    rw [if_neg (by simp [hfresh])]
    unfold recordedClient
    rw [hcc]
    have : cacheInsert cache path
        { e with clientByID := mapInsert e.clientByID a clientJS,
                 deps := deps, prebuilt := false } path =
        some { e with clientByID := mapInsert e.clientByID a clientJS,
                      deps := deps, prebuilt := false } := by
      simp [cacheInsert]
    rw [this]
    exact lookupClient_insert_ne e.clientByID a clientJS b hab
  · intro componentPath cache' hreg
    unfold RegisterPrebuiltBundle at hreg
    by_cases h1 : (componentPath = "" || a = "") = true
    · rw [if_pos h1] at hreg; exact absurd hreg (by simp)
    · rw [if_neg h1] at hreg
      by_cases h2 : (serverJS = "" || clientJS = "" || css = "") = true
      · rw [if_pos h2] at hreg; exact absurd hreg (by simp)
      · rw [if_neg h2] at hreg
        simp only [hcc] at hreg
        rw [if_neg (by simp [hfresh])] at hreg
        have hcache' : cache' = cacheInsert cache path
            { e with serverJS := serverJS, css := css,
                     clientByID := mapInsert e.clientByID a clientJS,
                     prebuilt := true, deps := [] } := by
          cases hreg; rfl
        subst hcache'
        unfold recordedClient
        rw [hcc]
        have : cacheInsert cache path
            { e with serverJS := serverJS, css := css,
                     clientByID := mapInsert e.clientByID a clientJS,
                     prebuilt := true, deps := [] } path =
            some { e with serverJS := serverJS, css := css,
                          clientByID := mapInsert e.clientByID a clientJS,
                          prebuilt := true, deps := [] } := by
          simp [cacheInsert]
        rw [this]
        exact lookupClient_insert_ne e.clientByID a clientJS b hab
  · intro fs' m1 m2
    exact read_server_css_shared fs'
      (storeBundles fs cache path a serverJS clientJS css deps) path m1 m2

/-- C4 witness: a pinned (hence never-stale) entry holding `b`'s client
script keeps it after a `storeBundles` for mount point `a`. -/
theorem C4_client_scripts_isolated_witness :
    recordedClient
      (storeBundles (fun _ => none)
        (fun p => if p = "/app/comp.tsx" then
          some { serverJS := "srv", clientByID := [("b", "B")], css := "sty",
                 deps := [], prebuilt := true }
          else none)
        "/app/comp.tsx" "a" "srv2" "A" "sty2" [])
      "/app/comp.tsx" "b" =
    recordedClient
      (fun p => if p = "/app/comp.tsx" then
        some { serverJS := "srv", clientByID := [("b", "B")], css := "sty",
               deps := [], prebuilt := true }
        else none)
      "/app/comp.tsx" "b" :=
  (C4_client_scripts_isolated (fun _ => none)
    (fun p => if p = "/app/comp.tsx" then
      some { serverJS := "srv", clientByID := [("b", "B")], css := "sty",
             deps := [], prebuilt := true }
      else none)
    "/app/comp.tsx" "a" "b" "srv2" "A" "sty2" []
    { serverJS := "srv", clientByID := [("b", "B")], css := "sty",
      deps := [], prebuilt := true }
    (by decide) (by decide) (by decide)).1

/-- C4 counterexample: the claim as stated fails when the existing entry
is stale.  Here the entry for the component exists (non-pinned, empty
fingerprint set, hence stale), records client script "B" for mount point
"b", and a `storeBundles` for mount point "a" replaces the whole entry,
dropping "b"'s client script. -/
theorem C4_counterexample :
    (recordedClient
        (fun p => if p = "/app/comp.tsx" then
          some { serverJS := "srv", clientByID := [("b", "B")], css := "sty",
                 deps := [], prebuilt := false }
          else none)
        "/app/comp.tsx" "b" = "B") ∧
    (recordedClient
        (storeBundles (fun _ => none)
          (fun p => if p = "/app/comp.tsx" then
            some { serverJS := "srv", clientByID := [("b", "B")], css := "sty",
                   deps := [], prebuilt := false }
            else none)
          "/app/comp.tsx" "a" "srv2" "A" "sty2"
          [("/app/dep.ts", { modTime := 1, size := 1 })])
        "/app/comp.tsx" "b" = "") ∧
    ("B" : String) ≠ "" := by
  refine ⟨by decide, by decide, by decide⟩

/-- The three build stages fanned out by `buildAll` (render.go:3588). -/
inductive BuildStage where
  | server
  | client
  | css
deriving DecidableEq

/-- Result of one build stage: output text plus transitive dependency
paths, or a compile error message. -/
def StageOutcome : Type := Except String (String × List String)

/-- The goroutine bodies wrap a stage failure with the stage's name
(render.go:3604, 3615, 3626). -/
def stageWrap : BuildStage → String → String
  | .server => fun e => "server bundle error: " ++ e
  | .client => fun e => "client bundle error: " ++ e
  | .css => fun e => "css error: " ++ e

/-- Selects a stage's outcome. -/
def stageResult (sr cr xr : StageOutcome) : BuildStage → StageOutcome
  | .server => sr
  | .client => cr
  | .css => xr

/-- The error a stage's goroutine posts on the `errs` channel (`none` when
the stage succeeded and posted nothing). -/
def postedErr (sr cr xr : StageOutcome) (s : BuildStage) : Option String :=
  match stageResult sr cr xr s with
  | .error e => some (stageWrap s e)
  | .ok _ => none

/-- A stage's output text; the Go zero value `""` when the goroutine never
assigned it. -/
def stageOut (r : StageOutcome) : String :=
  match r with
  | .ok p => p.1
  | .error _ => ""

/-- A stage's dependency list; Go zero value `nil` when never assigned. -/
def stageDeps (r : StageOutcome) : List String :=
  match r with
  | .ok p => p.2
  | .error _ => []

/-- One step of `mergePaths` (render.go:4321): skip a path already seen,
else append it to `merged` and record it in `seen`.  The accumulator is
(`merged`, `seen`). -/
def mergeStep (acc : List String × List String) (path : String) :
    List String × List String :=
  if path ∈ acc.2 then acc else (acc.1 ++ [path], path :: acc.2)

/-- Model of `mergePaths` (render.go:4321): concatenate the groups,
dropping every path already emitted. -/
def mergePaths (groups : List (List String)) : List String :=
  (groups.foldl (fun acc group => group.foldl mergeStep acc) ([], [])).1

/-- Model of `buildAll` (render.go:3588).  The three stage outcomes are
oracles for `bundleTSXFile`, `bundleClientJS` and `buildTailwindCSS`;
`order` is the order in which the three goroutines' channel sends/returns
are observed — the `for err := range errs` loop returns the first posted
error in that (scheduler-chosen) order.  On success the three outputs and
the merged dependency list are returned. -/
def buildAll (order : List BuildStage) (sr cr xr : StageOutcome) :
    Except String (String × String × String × List String) :=
  match (order.filterMap (postedErr sr cr xr)).head? with
  | some e => .error e
  | none =>
      .ok (stageOut sr, stageOut cr, stageOut xr,
           mergePaths [stageDeps sr, stageDeps cr, stageDeps xr])

lemma foldl_mergeStep_spec (group : List String) :
    ∀ acc : List String × List String,
      acc.1.Nodup → (∀ x, x ∈ acc.2 ↔ x ∈ acc.1) →
      (group.foldl mergeStep acc).1.Nodup ∧
      (∀ x, x ∈ (group.foldl mergeStep acc).2 ↔ x ∈ (group.foldl mergeStep acc).1) ∧
      (∀ x, x ∈ (group.foldl mergeStep acc).1 ↔ x ∈ acc.1 ∨ x ∈ group) := by
  induction group with
  | nil =>
      intro acc h1 h2
      exact ⟨h1, h2, fun x => by simp⟩
  | cons p rest ih =>
      intro acc h1 h2
      simp only [List.foldl_cons]
      by_cases hp : p ∈ acc.2
      · have hstep : mergeStep acc p = acc := by simp [mergeStep, hp]
        rw [hstep]
        obtain ⟨n1, n2, n3⟩ := ih acc h1 h2
        refine ⟨n1, n2, fun x => ?_⟩
        rw [n3 x]
        have hpa : p ∈ acc.1 := (h2 p).mp hp
        constructor
        · rintro (hx | hx)
          · exact Or.inl hx
          · exact Or.inr (List.mem_cons_of_mem _ hx)
        · rintro (hx | hx)
          · exact Or.inl hx
          · rcases List.mem_cons.mp hx with rfl | hx
            · exact Or.inl hpa
            · exact Or.inr hx
      · have hstep : mergeStep acc p = (acc.1 ++ [p], p :: acc.2) := by
          simp [mergeStep, hp]
        rw [hstep]
        have hpnot : p ∉ acc.1 := fun hc => hp ((h2 p).mpr hc)
        have h1' : (acc.1 ++ [p]).Nodup := by
          simp [List.nodup_append, h1, hpnot]
        have h2' : ∀ x, x ∈ p :: acc.2 ↔ x ∈ acc.1 ++ [p] := by
          intro x
          simp only [List.mem_cons, List.mem_append, List.mem_singleton,
            List.not_mem_nil, or_false, h2 x]
          exact or_comm
        obtain ⟨n1, n2, n3⟩ := ih (acc.1 ++ [p], p :: acc.2) h1' h2'
        refine ⟨n1, n2, fun x => ?_⟩
        rw [n3 x]
        simp only [List.mem_append, List.mem_singleton, List.mem_cons]
        tauto

lemma foldl_groups_spec (groups : List (List String)) :
    ∀ acc : List String × List String,
      acc.1.Nodup → (∀ x, x ∈ acc.2 ↔ x ∈ acc.1) →
      (groups.foldl (fun acc group => group.foldl mergeStep acc) acc).1.Nodup ∧
      (∀ x, x ∈ (groups.foldl (fun acc group => group.foldl mergeStep acc) acc).1 ↔
        x ∈ acc.1 ∨ ∃ g ∈ groups, x ∈ g) := by
  induction groups with
  | nil =>
      intro acc h1 _
      exact ⟨h1, fun x => by simp⟩
  | cons g rest ih =>
      intro acc h1 h2
      simp only [List.foldl_cons]
      obtain ⟨n1, n2, n3⟩ := foldl_mergeStep_spec g acc h1 h2
      obtain ⟨m1, m3⟩ := ih _ n1 n2
      refine ⟨m1, fun x => ?_⟩
      rw [m3 x, n3 x]
      simp only [List.mem_cons]
      constructor
      · rintro ((hx | hx) | ⟨g', hg', hxg⟩)
        · exact Or.inl hx
        · exact Or.inr ⟨g, Or.inl rfl, hx⟩
        · exact Or.inr ⟨g', Or.inr hg', hxg⟩
      · rintro (hx | ⟨g', hg' | hg', hxg⟩)
        · exact Or.inl (Or.inl hx)
        · exact Or.inl (Or.inr (hg' ▸ hxg))
        · exact Or.inr ⟨g', hg', hxg⟩

lemma mergePaths_spec (groups : List (List String)) :
    (mergePaths groups).Nodup ∧
    (∀ x, x ∈ mergePaths groups ↔ ∃ g ∈ groups, x ∈ g) := by
  obtain ⟨h1, h3⟩ := foldl_groups_spec groups ([], [])
    (by simp) (fun x => by simp)
  exact ⟨h1, fun x => by rw [mergePaths, h3 x]; simp⟩

lemma stage_mem_all (s : BuildStage) :
    s ∈ [BuildStage.server, BuildStage.client, BuildStage.css] := by
  cases s <;> simp

/-- C3: `buildAll` waits for all three stages and returns an error exactly
when at least one stage fails; the returned error is one of the stage
errors wrapped with the failing stage's name (whichever reached the error
channel first in the scheduler-chosen order).  When all three succeed it
returns the three outputs plus the merged, deduplicated union of the three
dependency lists. -/
theorem C3_buildAll_fan_in (order : List BuildStage) (sr cr xr : StageOutcome)
    (horder : order.Perm [BuildStage.server, BuildStage.client, BuildStage.css]) :
    ((∃ e, buildAll order sr cr xr = .error e) ↔
      ((∃ m, sr = .error m) ∨ (∃ m, cr = .error m) ∨ (∃ m, xr = .error m))) ∧
    (∀ e, buildAll order sr cr xr = .error e →
      ∃ s m, stageResult sr cr xr s = .error m ∧ e = stageWrap s m) ∧
    (∀ ss sd cs cd xs xd, sr = .ok (ss, sd) → cr = .ok (cs, cd) →
      xr = .ok (xs, xd) →
      buildAll order sr cr xr = .ok (ss, cs, xs, mergePaths [sd, cd, xd]) ∧
      (mergePaths [sd, cd, xd]).Nodup ∧
      (∀ p, p ∈ mergePaths [sd, cd, xd] ↔ p ∈ sd ∨ p ∈ cd ∨ p ∈ xd)) := by
  have hL : ∀ y, y ∈ order.filterMap (postedErr sr cr xr) ↔
      ∃ s, postedErr sr cr xr s = some y := by
    intro y
    rw [List.mem_filterMap]
    constructor
    · rintro ⟨s, -, h⟩; exact ⟨s, h⟩
    · rintro ⟨s, h⟩
      exact ⟨s, horder.mem_iff.mpr (stage_mem_all s), h⟩
  cases hfm : order.filterMap (postedErr sr cr xr) with
  | nil =>
      have hall : ∀ s, postedErr sr cr xr s = none := by
        intro s
        have := List.filterMap_eq_nil_iff.mp hfm s (horder.mem_iff.mpr (stage_mem_all s))
        exact this
      have hbuild : buildAll order sr cr xr =
          .ok (stageOut sr, stageOut cr, stageOut xr,
               mergePaths [stageDeps sr, stageDeps cr, stageDeps xr]) := by
        unfold buildAll
        rw [hfm]
        rfl
      refine ⟨?_, ?_, ?_⟩
      · constructor
        · rintro ⟨e, he⟩
          rw [hbuild] at he
          exact absurd he (by simp)
        · rintro (⟨m, hm⟩ | ⟨m, hm⟩ | ⟨m, hm⟩)
          · have := hall .server; simp [postedErr, stageResult, hm] at this
          · have := hall .client; simp [postedErr, stageResult, hm] at this
          · have := hall .css; simp [postedErr, stageResult, hm] at this
      · intro e he
        rw [hbuild] at he
        exact absurd he (by simp)
      · intro ss sd cs cd xs xd hsr hcr hxr
        refine ⟨?_, (mergePaths_spec [sd, cd, xd]).1, fun p => ?_⟩
        · rw [hbuild, hsr, hcr, hxr]
          rfl
        · rw [(mergePaths_spec [sd, cd, xd]).2 p]
          simp
  | cons y t =>
      have hbuild : buildAll order sr cr xr = .error y := by
        unfold buildAll
        rw [hfm]
        rfl
      have hy : ∃ s, postedErr sr cr xr s = some y :=
        (hL y).mp (by rw [hfm]; exact List.mem_cons_self y t)
      refine ⟨?_, ?_, ?_⟩
      · constructor
        · rintro -
          obtain ⟨s, hs⟩ := hy
          unfold postedErr at hs
          cases hres : stageResult sr cr xr s with
          | ok v => rw [hres] at hs; exact absurd hs (by simp)
          | error m =>
              cases s with
              | server => exact Or.inl ⟨m, hres⟩
              | client => exact Or.inr (Or.inl ⟨m, hres⟩)
              | css => exact Or.inr (Or.inr ⟨m, hres⟩)
        · rintro -
          exact ⟨y, hbuild⟩
      · intro e he
        rw [hbuild] at he
        have hey : e = y := by
          cases he
          rfl
        subst hey
        obtain ⟨s, hs⟩ := hy
        unfold postedErr at hs
        cases hres : stageResult sr cr xr s with
        | ok v => rw [hres] at hs; exact absurd hs (by simp)
        | error m =>
            rw [hres] at hs
            refine ⟨s, m, hres, ?_⟩
            cases hs
            rfl
      · intro ss sd cs cd xs xd hsr hcr hxr
        have hall : ∀ s, postedErr sr cr xr s = none := by
          intro s
          cases s <;> simp [postedErr, stageResult, hsr, hcr, hxr]
        have : order.filterMap (postedErr sr cr xr) = [] := by
          apply List.filterMap_eq_nil_iff.mpr
          intro s _
          exact hall s
        rw [hfm] at this
        exact absurd this (by simp)

/-- C3 witness: concrete success run — three successful stages, merged and
deduplicated dependency union. -/
theorem C3_buildAll_fan_in_witness :
    buildAll [BuildStage.server, BuildStage.client, BuildStage.css]
      (.ok ("S", ["d1", "d2"])) (.ok ("C", ["d2", "d3"])) (.ok ("X", ["d1"]))
      = .ok ("S", "C", "X", ["d1", "d2", "d3"]) := by
  have h := ((C3_buildAll_fan_in
      [BuildStage.server, BuildStage.client, BuildStage.css]
      (.ok ("S", ["d1", "d2"])) (.ok ("C", ["d2", "d3"])) (.ok ("X", ["d1"]))
      (List.Perm.refl _)).2.2 "S" ["d1", "d2"] "C" ["d2", "d3"] "X" ["d1"]
      rfl rfl rfl).1
  rw [h]
  rfl

/-- State of the runtime pool's counting semaphore (`runtimePool.sem`,
render.go:2098): the number of tokens currently in the buffered channel
and its capacity. -/
structure PoolState where
  semCount : Nat
  capacity : Nat
deriving DecidableEq

/-- Which arm of the `select` in `runtimePool.acquire` (render.go:2145)
fired: the send on the semaphore completed, or the context's done channel
fired first. -/
inductive AcquireBranch where
  | slotObtained
  | ctxCancelled
deriving DecidableEq

/-- Bookkeeping of QuickJS runtimes/contexts created and closed during one
call, used to state that no sandbox leaks. -/
structure RuntimeTrace where
  runtimesCreated : Nat
  runtimesClosed : Nat
  contextsCreated : Nat
  contextsClosed : Nat
deriving DecidableEq

/-- Model of one `jsRuntime` (render.go:2093): the only observable the
claims need is the configured stack bound. -/
structure jsRuntimeModel where
  maxStackBytes : Nat
deriving DecidableEq

/-- Model of `newRuntimeWithContext` (render.go:2184): create a runtime
and context; `preludeErr` is the oracle for `loadPolyfills` throwing.  On
a polyfill failure the context and the runtime are both closed before the
error is returned. -/
def newRuntimeWithContext (preludeErr : Option String) :
    Except String jsRuntimeModel × RuntimeTrace :=
  match preludeErr with
  | some e =>
      (.error ("polyfills: " ++ e),
       { runtimesCreated := 1, runtimesClosed := 1,
         contextsCreated := 1, contextsClosed := 1 })
  | none =>
      (.ok { maxStackBytes := 4 * 1024 * 1024 },
       { runtimesCreated := 1, runtimesClosed := 0,
         contextsCreated := 1, contextsClosed := 0 })

/-- Model of `runtimePool.acquire` (render.go:2140): if the context's done
channel fires first, return its error without creating anything; otherwise
take a semaphore token, build the runtime, and on a construction failure
drain one token back (non-blocking receive with default) before returning
the error. -/
def runtimePoolAcquire (st : PoolState) (branch : AcquireBranch)
    (ctxErr : String) (preludeErr : Option String) :
    PoolState × Except String jsRuntimeModel × RuntimeTrace :=
  match branch with
  | .ctxCancelled =>
      (st, .error ctxErr,
       { runtimesCreated := 0, runtimesClosed := 0,
         contextsCreated := 0, contextsClosed := 0 })
  | .slotObtained =>
      let st1 : PoolState := { st with semCount := st.semCount + 1 }
      match newRuntimeWithContext preludeErr with
      | (.error e, tr) =>
          let st2 : PoolState :=
            if 0 < st1.semCount then { st1 with semCount := st1.semCount - 1 }
            else st1
          (st2, .error e, tr)
      | (.ok vm, tr) => (st1, .ok vm, tr)

/-- C5: if the context is cancelled before a pool slot becomes free,
`acquire` returns the cancellation error, leaves the semaphore untouched
and constructs no sandbox; if a slot is obtained but loading the polyfill
prelude fails, the context and runtime are closed, the slot is freed
before returning (semaphore back to its prior count), the error is
returned and no sandbox leaks to the caller. -/
theorem C5_acquire_no_leak (st : PoolState) (ctxErr : String)
    (preludeErr : Option String) :
    (runtimePoolAcquire st .ctxCancelled ctxErr preludeErr =
      (st, .error ctxErr,
       { runtimesCreated := 0, runtimesClosed := 0,
         contextsCreated := 0, contextsClosed := 0 })) ∧
    (∀ e, runtimePoolAcquire st .slotObtained ctxErr (some e) =
      (st, .error ("polyfills: " ++ e),
       { runtimesCreated := 1, runtimesClosed := 1,
         contextsCreated := 1, contextsClosed := 1 })) := by
  constructor
  · rfl
  · intro e
    simp [runtimePoolAcquire, newRuntimeWithContext]

/-- A Go context modelled by its done-predicate over time. -/
def Ctx : Type := Nat → Bool

/-- `context.WithTimeout` at time `now`: done when the parent is done or
the deadline has passed. -/
def ctxWithTimeout (ctx : Ctx) (now timeout : Nat) : Ctx :=
  fun t => ctx t || decide (now + timeout ≤ t)

/-- Model of `currentRenderTimeout` (render.go:2212): the stored value, or
0 when nothing is stored. -/
def currentRenderTimeout (stored : Option Int) : Int :=
  match stored with
  | none => 0
  | some d => d

/-- Model of `SetRenderTimeout` (render.go:2078): the value stored —
negative durations are clamped to 0 (timeout disabled). -/
def SetRenderTimeout (d : Int) : Int :=
  if d < 0 then 0 else d

/-- The context `executeSSR` evaluates under (render.go:4172–4181): the
caller's context, narrowed by the configured timeout only when that
timeout is positive. -/
def executeSSRCtx (timeout : Int) (now : Nat) (callerCtx : Ctx) : Ctx :=
  if 0 < timeout then ctxWithTimeout callerCtx now timeout.toNat else callerCtx

/-- Model of `makeInterruptHandler` (render.go:4201): `nil` for a nil
context, otherwise a callback returning 1 when the context is done and 0
otherwise. -/
def makeInterruptHandler (ctx : Option Ctx) : Option (Nat → Nat) :=
  match ctx with
  | none => none
  | some c => some (fun t => if c t then 1 else 0)

/-- A QuickJS evaluation result: a string value, a thrown exception, or
some other (non-string) value; `jsValueText` is `Value.String()`. -/
inductive JSValue where
  | str (s : String)
  | exception (msg : String)
  | other (text : String)
deriving DecidableEq

def jsValueText : JSValue → String
  | .str s => s
  | .exception m => m
  | .other t => t

/-- The script `runSSR` builds around the serialized props
(render.go:4242–4247). -/
def renderCodeFor (propsJSON : String) : String :=
  "\n\t\t\t(function() \x7b\n\t\t\t\tvar render = __Component.default || __Component;\n\t\t\t\treturn render(" ++
    propsJSON ++ ");\n\t\t\t\x7d)()\n\t\t"

/-- Model of `runSSR` (render.go:4215): evaluate the bundle, fail if it
throws; marshal the props, fail if that fails; evaluate the render call
with the serialized props and require a string result.  `evalCtx` is the
oracle for `ctx.Eval`; `marshalResult` for `json.Marshal(props)`;
`debug` for the `ALLOY_DEBUG_BUNDLE` environment variable.  Returns the
outcome and the list of scripts evaluated, in order. -/
def runSSR (evalCtx : String → JSValue) (jsCode : String)
    (marshalResult : Except String String) (debug : Bool) :
    Except String String × List String :=
  match evalCtx jsCode with
  | .exception m => (.error ("component eval: " ++ m), [jsCode])
  | _ =>
      let dbgEvald : List String :=
        if debug then ["typeof __Component", "typeof __Component.default"] else []
      match marshalResult with
      | .error e => (.error ("props marshal: " ++ e), jsCode :: dbgEvald)
      | .ok propsJSON =>
          match evalCtx (renderCodeFor propsJSON) with
          | .str s => (.ok s, jsCode :: dbgEvald ++ [renderCodeFor propsJSON])
          | v => (.error ("expected string result, got " ++ jsValueText v),
                  jsCode :: dbgEvald ++ [renderCodeFor propsJSON])

/-- Observable effects and outcome of one `executeSSR` call. -/
structure SSRRun where
  result : Except String String
  poolAfter : PoolState
  trace : RuntimeTrace
  released : Bool
  interruptInstalled : Bool
  interruptCleared : Bool
  evaluated : List String

/-- Model of `executeSSR` (render.go:4166): derive the deadline context,
acquire a runtime from the pool (failing with a wrapped error), install
the interrupt handler, run the SSR script, clear the handler, and release
the runtime on both the error and the success path. -/
def executeSSR (timeoutConfig : Int) (now : Nat) (callerCtx : Ctx)
    (pool : PoolState) (branch : AcquireBranch) (ctxErr : String)
    (preludeErr : Option String) (evalCtx : String → JSValue)
    (jsCode : String) (marshalResult : Except String String)
    (debug : Bool) : SSRRun :=
  let _ctx : Ctx := executeSSRCtx timeoutConfig now callerCtx
  match runtimePoolAcquire pool branch ctxErr preludeErr with
  | (st', .error e, tr) =>
      { result := .error ("acquire runtime: " ++ e), poolAfter := st',
        trace := tr, released := false, interruptInstalled := false,
        interruptCleared := false, evaluated := [] }
  | (st', .ok _, tr) =>
      let run := runSSR evalCtx jsCode marshalResult debug
      let st2 : PoolState :=
        if 0 < st'.semCount then { st' with semCount := st'.semCount - 1 }
        else st'
      { result := run.1, poolAfter := st2,
        trace := { tr with runtimesClosed := tr.runtimesClosed + 1,
                           contextsClosed := tr.contextsClosed + 1 },
        released := true, interruptInstalled := true,
        interruptCleared := true, evaluated := run.2 }

/-- C6: with a successfully acquired sandbox, `executeSSR` always releases
it (on the error paths and the success path alike); it fails when the
bundle evaluation throws, succeeds with the string the render entry point
returns, fails when the entry returns a non-string; and the render entry
is invoked with the script that carries the JSON-serialized props
(`marshalResult` is the oracle for `json.Marshal(props)`). -/
theorem C6_executeSSR_release_and_result (timeoutConfig : Int) (now : Nat)
    (callerCtx : Ctx) (pool : PoolState) (ctxErr : String)
    (evalCtx : String → JSValue) (jsCode : String)
    (marshalResult : Except String String) (debug : Bool) :
    ((executeSSR timeoutConfig now callerCtx pool .slotObtained ctxErr none
        evalCtx jsCode marshalResult debug).released = true) ∧
    (∀ m, evalCtx jsCode = .exception m →
      (executeSSR timeoutConfig now callerCtx pool .slotObtained ctxErr none
          evalCtx jsCode marshalResult debug).result =
        .error ("component eval: " ++ m)) ∧
    (∀ propsJSON s, marshalResult = .ok propsJSON →
      (∀ m, evalCtx jsCode ≠ .exception m) →
      evalCtx (renderCodeFor propsJSON) = .str s →
      (executeSSR timeoutConfig now callerCtx pool .slotObtained ctxErr none
          evalCtx jsCode marshalResult debug).result = .ok s) ∧
    (∀ propsJSON, marshalResult = .ok propsJSON →
      (∀ m, evalCtx jsCode ≠ .exception m) →
      (∀ s, evalCtx (renderCodeFor propsJSON) ≠ .str s) →
      (executeSSR timeoutConfig now callerCtx pool .slotObtained ctxErr none
          evalCtx jsCode marshalResult debug).result =
        .error ("expected string result, got " ++
          jsValueText (evalCtx (renderCodeFor propsJSON)))) ∧
    (∀ propsJSON, marshalResult = .ok propsJSON →
      (∀ m, evalCtx jsCode ≠ .exception m) →
      renderCodeFor propsJSON ∈
        (executeSSR timeoutConfig now callerCtx pool .slotObtained ctxErr none
          evalCtx jsCode marshalResult debug).evaluated) := by
  have hrun : executeSSR timeoutConfig now callerCtx pool .slotObtained ctxErr
      none evalCtx jsCode marshalResult debug =
      { result := (runSSR evalCtx jsCode marshalResult debug).1,
        poolAfter :=
          if 0 < pool.semCount + 1 then
            { pool with semCount := pool.semCount + 1 - 1 }
          else { pool with semCount := pool.semCount + 1 },
        trace := { runtimesCreated := 1, runtimesClosed := 0 + 1,
                   contextsCreated := 1, contextsClosed := 0 + 1 },
        released := true, interruptInstalled := true,
        interruptCleared := true,
        evaluated := (runSSR evalCtx jsCode marshalResult debug).2 } := rfl
  refine ⟨by rw [hrun], ?_, ?_, ?_, ?_⟩
  · intro m hev
    rw [hrun]
    simp [runSSR, hev]
  · intro propsJSON s hm hne hrr
    rw [hrun]
    cases hev : evalCtx jsCode with
    | exception m => exact absurd hev (hne m)
    | str s' => simp [runSSR, hev, hm, hrr]
    | other t => simp [runSSR, hev, hm, hrr]
  · intro propsJSON hm hne hs
    rw [hrun]
    cases hrr : evalCtx (renderCodeFor propsJSON) with
    | str s' => exact absurd hrr (hs s')
    | exception m =>
        cases hev : evalCtx jsCode with
        | exception m' => exact absurd hev (hne m')
        | str s' => simp [runSSR, hev, hm, hrr, jsValueText]
        | other t => simp [runSSR, hev, hm, hrr, jsValueText]
    | other t =>
        cases hev : evalCtx jsCode with
        | exception m' => exact absurd hev (hne m')
        | str s' => simp [runSSR, hev, hm, hrr, jsValueText]
        | other t' => simp [runSSR, hev, hm, hrr, jsValueText]
  · intro propsJSON hm hne
    rw [hrun]
    cases hev : evalCtx jsCode with
    | exception m' => exact absurd hev (hne m')
    | str s' =>
        cases hrr : evalCtx (renderCodeFor propsJSON) with
        | str s'' => simp [runSSR, hev, hm, hrr]
        | exception m'' => simp [runSSR, hev, hm, hrr]
        | other t'' => simp [runSSR, hev, hm, hrr]
    | other t' =>
        cases hrr : evalCtx (renderCodeFor propsJSON) with
        | str s'' => simp [runSSR, hev, hm, hrr]
        | exception m'' => simp [runSSR, hev, hm, hrr]
        | other t'' => simp [runSSR, hev, hm, hrr]

/-- C6 witness: a concrete run — the bundle evaluates cleanly and the
render entry returns the string "<p>ok</p>"; the sandbox is released. -/
theorem C6_executeSSR_release_and_result_witness :
    ((executeSSR 0 0 (fun _ => false) { semCount := 0, capacity := 4 }
        .slotObtained "context canceled" none
        (fun code => if code = renderCodeFor "\x7b\x7d" then .str "<p>ok</p>"
                     else .other "undefined")
        "bundle-src" (.ok "\x7b\x7d") false).result = .ok "<p>ok</p>") ∧
    ((executeSSR 0 0 (fun _ => false) { semCount := 0, capacity := 4 }
        .slotObtained "context canceled" none
        (fun code => if code = renderCodeFor "\x7b\x7d" then .str "<p>ok</p>"
                     else .other "undefined")
        "bundle-src" (.ok "\x7b\x7d") false).released = true) :=
  ⟨(C6_executeSSR_release_and_result 0 0 (fun _ => false)
      { semCount := 0, capacity := 4 } "context canceled"
      (fun code => if code = renderCodeFor "\x7b\x7d" then .str "<p>ok</p>"
                   else .other "undefined")
      "bundle-src" (.ok "\x7b\x7d") false).2.2.1 "\x7b\x7d" "<p>ok</p>" rfl
      (fun m => by rw [if_neg (by decide)]; simp) (by simp),
   (C6_executeSSR_release_and_result 0 0 (fun _ => false)
      { semCount := 0, capacity := 4 } "context canceled"
      (fun code => if code = renderCodeFor "\x7b\x7d" then .str "<p>ok</p>"
                   else .other "undefined")
      "bundle-src" (.ok "\x7b\x7d") false).1⟩

/-- C9: the evaluation deadline is derived from the process-wide
configured render timeout (`currentRenderTimeout` of the stored value):
when it is zero (or negative, which `SetRenderTimeout` clamps to zero and
thus never stores), no deadline is added and the caller's context is used
as given; when positive, the context is narrowed by that timeout; and the
sandbox interrupt callback built by `makeInterruptHandler` returns 1
exactly when the deadline context is done and 0 otherwise. -/
theorem C9_deadline_from_configured_timeout (stored : Option Int) (now : Nat)
    (callerCtx : Ctx) :
    (∀ d : Int, d < 0 → SetRenderTimeout d = 0) ∧
    (currentRenderTimeout stored ≤ 0 →
      executeSSRCtx (currentRenderTimeout stored) now callerCtx = callerCtx) ∧
    (0 < currentRenderTimeout stored → ∀ t,
      executeSSRCtx (currentRenderTimeout stored) now callerCtx t =
        (callerCtx t ||
          decide (now + (currentRenderTimeout stored).toNat ≤ t))) ∧
    (∀ c : Ctx, ∃ h, makeInterruptHandler (some c) = some h ∧
      ∀ t, (c t = true → h t = 1) ∧ (c t = false → h t = 0)) := by
  refine ⟨?_, ?_, ?_, ?_⟩
  · intro d hd
    simp [SetRenderTimeout, hd]
  · intro hle
    unfold executeSSRCtx
    rw [if_neg (by omega)]
  · intro hpos t
    unfold executeSSRCtx
    rw [if_pos hpos]
    rfl
  · intro c
    refine ⟨fun t => if c t then 1 else 0, rfl, fun t => ⟨?_, ?_⟩⟩
    · intro h; simp [h]
    · intro h; simp [h]

/-- C9 witness: with a configured timeout of 0 the caller's context is
used as given; with a timeout of 5 the context is done at time 7; the
interrupt handler over an always-done context reports 1. -/
theorem C9_deadline_from_configured_timeout_witness :
    (executeSSRCtx (currentRenderTimeout (some 0)) 3 (fun _ => false) =
      (fun _ => false)) ∧
    (executeSSRCtx (currentRenderTimeout (some 5)) 0 (fun _ => false) 7 =
      ((fun (_ : Nat) => false) 7 || decide (0 + (5 : Int).toNat ≤ 7))) ∧
    (∃ h, makeInterruptHandler (some (fun _ => true)) = some h ∧
      ∀ t, ((fun (_ : Nat) => true) t = true → h t = 1) ∧
           ((fun (_ : Nat) => true) t = false → h t = 0)) :=
  ⟨(C9_deadline_from_configured_timeout (some 0) 3 (fun _ => false)).2.1
      (by decide),
   (C9_deadline_from_configured_timeout (some 5) 0 (fun _ => false)).2.2.1
      (by decide) 7,
   (C9_deadline_from_configured_timeout (some 1) 0 (fun _ => false)).2.2.2
      (fun _ => true)⟩

/-- Oracles for one fresh watcher launch (render.go:3759–3778):
`startErr` is the result of `cmd.Start()`; `outputAppears` is whether some
of the 20 poll attempts sees a non-empty output file. -/
structure WatcherRunOracles where
  startErr : Option String
  outputAppears : Bool
deriving DecidableEq

/-- Effects of the single background goroutine spawned by
`ensureTailwindWatcher` (render.go:3759): the error it posts on `errCh`
(if any) and whether it deletes the registry entry via `clearWatcher`.
This is the ONLY goroutine the source spawns for a watcher; nothing waits
on subprocess exit. -/
structure WatcherGoroutineResult where
  errSent : Option String
  cleared : Bool
deriving DecidableEq

/-- Model of the background goroutine body (render.go:3759–3778): a start
failure posts the error and clears the registry entry; otherwise 20 polls
for non-empty output either succeed (ready, entry kept) or exhaust the
budget (error posted, entry cleared). -/
def watcherGoroutine (o : WatcherRunOracles) : WatcherGoroutineResult :=
  match o.startErr with
  | some e => { errSent := some e, cleared := true }
  | none =>
      if o.outputAppears then { errSent := none, cleared := false }
      else { errSent := some "tailwind watch output not ready", cleared := true }

/-- Outcome of one `ensureTailwindWatcher` call: the returned output path
or error, whether the registry still holds the entry once the background
goroutine has settled, and whether this call launched a new watch
subprocess. -/
structure EnsureResult where
  result : Except String String
  registryHasEntry : Bool
  startedSubprocess : Bool

/-- Model of `ensureTailwindWatcher`'s fresh-start path (render.go:3731–
3795, taken when the registry has no entry for the stylesheet): the entry
is registered, the goroutine launched, and the caller selects on the
ready channel against a 3-second timeout; on ready it drains `errCh` and
stats the output file (`statNonEmptyAtCheck`). -/
def ensureTailwindWatcherFresh (o : WatcherRunOracles) (timedOut : Bool)
    (statNonEmptyAtCheck : Bool) (outputPath : String) : EnsureResult :=
  let g := watcherGoroutine o
  let res : Except String String :=
    if timedOut then .error "tailwind watch start timeout"
    else
      match g.errSent with
      | some e => .error e
      | none =>
          if statNonEmptyAtCheck then .ok outputPath
          else .error "tailwind watch output not ready"
  { result := res, registryHasEntry := !g.cleared, startedSubprocess := true }

/-- Model of `ensureTailwindWatcher`'s existing-entry path (render.go:
3711–3729): wait on the existing entry's ready channel (5-second budget),
drain its `errCh`, stat its output file.  No branch of this path touches
the registry or launches a subprocess. -/
def ensureTailwindWatcherExisting (readyWithin : Bool)
    (errInCh : Option String) (statNonEmpty : Bool)
    (outputPath : String) : EnsureResult :=
  { result :=
      if !readyWithin then .error "tailwind watch not ready"
      else
        match errInCh with
        | some e => .error e
        | none =>
            if statNonEmpty then .ok outputPath
            else .error "tailwind watch output not ready",
    registryHasEntry := true, startedSubprocess := false }

/-- Model of the development-mode, dev-CSS-cache-miss path of
`buildTailwindCSS` (render.go:3986–4006): consult the watcher; on success
read the watched output; on any failure fall back to the one-shot
`runTailwind` compile, whose outcome is the request's outcome. -/
def buildTailwindCSSDev (cssPath : String) (ensureRes : Except String String)
    (readWatchedRes : String → Except String String)
    (oneShot : Except String String) : Except String (String × List String) :=
  match ensureRes with
  | .ok outputPath =>
      match readWatchedRes outputPath with
      | .ok css => .ok (css, [cssPath])
      | .error _ =>
          match oneShot with
          | .ok s => .ok (s, [cssPath])
          | .error e => .error e
  | .error _ =>
      match oneShot with
      | .ok s => .ok (s, [cssPath])
      | .error e => .error e

/-- C8: when the watch subprocess fails to start or never produces
non-empty output within the 20-attempt budget, the registry entry is
cleared (so a later request retries the watch from scratch), the request
falls back to the one-shot tailwind compile and returns its output, and
an error surfaces to the caller only if that one-shot compile itself
fails. -/
theorem C8_watcher_failure_oneshot_fallback (o : WatcherRunOracles)
    (timedOut statCheck : Bool) (outputPath cssPath : String)
    (readWatchedRes : String → Except String String)
    (oneShot : Except String String)
    (hfail : o.startErr ≠ none ∨ o.outputAppears = false) :
    (∃ e, (ensureTailwindWatcherFresh o timedOut statCheck outputPath).result =
      .error e) ∧
    ((ensureTailwindWatcherFresh o timedOut statCheck outputPath).registryHasEntry
      = false) ∧
    (∀ s, oneShot = .ok s →
      buildTailwindCSSDev cssPath
        (ensureTailwindWatcherFresh o timedOut statCheck outputPath).result
        readWatchedRes oneShot = .ok (s, [cssPath])) ∧
    (∀ e, oneShot = .error e →
      buildTailwindCSSDev cssPath
        (ensureTailwindWatcherFresh o timedOut statCheck outputPath).result
        readWatchedRes oneShot = .error e) := by
  have hg : (watcherGoroutine o).cleared = true ∧
      ∃ m, (watcherGoroutine o).errSent = some m := by
    cases hs : o.startErr with
    | some e => exact ⟨by simp [watcherGoroutine, hs], e, by simp [watcherGoroutine, hs]⟩
    | none =>
        rcases hfail with hf | hf
        · exact absurd hs hf
        · exact ⟨by simp [watcherGoroutine, hs, hf],
                 "tailwind watch output not ready",
                 by simp [watcherGoroutine, hs, hf]⟩
  obtain ⟨hcl, m, hm⟩ := hg
  have hres : ∃ e, (ensureTailwindWatcherFresh o timedOut statCheck outputPath).result =
      .error e := by
    unfold ensureTailwindWatcherFresh
    cases timedOut with
    | true => exact ⟨"tailwind watch start timeout", rfl⟩
    | false => exact ⟨m, by simp [hm]⟩
  obtain ⟨e0, he0⟩ := hres
  refine ⟨⟨e0, he0⟩, ?_, ?_, ?_⟩
  · unfold ensureTailwindWatcherFresh
    simp [hcl]
  · intro s hs
    rw [he0, hs]
    rfl
  · intro e he
    rw [he0, he]
    rfl

/-- C8 witness: a watcher whose output never appears within the budget,
with a succeeding one-shot compile. -/
theorem C8_watcher_failure_oneshot_fallback_witness :
    ((ensureTailwindWatcherFresh { startErr := none, outputAppears := false }
        false false "/pkg/.alloy-cache/tw.css").registryHasEntry = false) ∧
    (buildTailwindCSSDev "/pkg/app.css"
      (ensureTailwindWatcherFresh { startErr := none, outputAppears := false }
        false false "/pkg/.alloy-cache/tw.css").result
      (fun _ => .error "not fresh") (.ok "compiled-css") =
      .ok ("compiled-css", ["/pkg/app.css"])) :=
  ⟨(C8_watcher_failure_oneshot_fallback
      { startErr := none, outputAppears := false } false false
      "/pkg/.alloy-cache/tw.css" "/pkg/app.css" (fun _ => .error "not fresh")
      (.ok "compiled-css") (Or.inr rfl)).2.1,
   (C8_watcher_failure_oneshot_fallback
      { startErr := none, outputAppears := false } false false
      "/pkg/.alloy-cache/tw.css" "/pkg/app.css" (fun _ => .error "not fresh")
      (.ok "compiled-css") (Or.inr rfl)).2.2.1 "compiled-css" rfl⟩

/-- C7 (amended): the watcher registry entry is removed exactly when the
watch subprocess fails to start or its output fails to become non-empty
within the bounded attempt budget; no code path watches for subprocess
exit, so a watcher that became ready keeps its registry entry, and every
later `ensureTailwindWatcher` call for that stylesheet takes the
existing-entry path, which never removes the entry and never starts a
fresh subprocess. -/
theorem C7_watcher_registry_removal (o : WatcherRunOracles)
    (timedOut statCheck : Bool) (outputPath : String) :
    ((ensureTailwindWatcherFresh o timedOut statCheck outputPath).registryHasEntry
        = false ↔ (o.startErr ≠ none ∨ o.outputAppears = false)) ∧
    (∀ (readyWithin : Bool) (errInCh : Option String) (statNonEmpty : Bool)
        (outPath : String),
      (ensureTailwindWatcherExisting readyWithin errInCh statNonEmpty
          outPath).startedSubprocess = false ∧
      (ensureTailwindWatcherExisting readyWithin errInCh statNonEmpty
          outPath).registryHasEntry = true) := by
  constructor
  · unfold ensureTailwindWatcherFresh
    cases hs : o.startErr with
    | some e => simp [watcherGoroutine, hs]
    | none =>
        cases ha : o.outputAppears with
        | true => simp [watcherGoroutine, hs, ha]
        | false => simp [watcherGoroutine, hs, ha]
  · intro readyWithin errInCh statNonEmpty outPath
    exact ⟨rfl, rfl⟩

/-- C7 counterexample: a watcher that starts successfully and produces
output keeps its registry entry; however its subprocess later exits, no
task observes that (the source spawns no exit-waiting goroutine), and the
next `ensureTailwindWatcher` call for the stylesheet reuses the dead
entry's output file instead of starting a fresh watch subprocess —
contradicting the claim that the entry is removed on exit and the next
caller starts fresh. -/
theorem C7_counterexample :
    ((ensureTailwindWatcherFresh { startErr := none, outputAppears := true }
        false true "/pkg/.alloy-cache/tw.css").registryHasEntry = true) ∧
    ((ensureTailwindWatcherExisting true none true
        "/pkg/.alloy-cache/tw.css").result = .ok "/pkg/.alloy-cache/tw.css") ∧
    ((ensureTailwindWatcherExisting true none true
        "/pkg/.alloy-cache/tw.css").startedSubprocess = false) :=
  ⟨rfl, rfl, rfl⟩

/-- A JSON-serializable property value, as far as the meta-extraction
code inspects it: a string, a nested map (`map[string]any`), or anything
else. -/
inductive PropValue where
  | str (s : String)
  | map (m : List (String × PropValue))
  | other

/-- Go map lookup `m[key]` on a property map. -/
def propLookup (m : List (String × PropValue)) (key : String) :
    Option PropValue :=
  match m.find? (fun kv => kv.fst = key) with
  | some kv => some kv.snd
  | none => none

/-- Model of `stringFromMap` (render.go:2555): empty map or missing key or
non-string value yield `""`. -/
def stringFromMap (m : List (String × PropValue)) (key : String) : String :=
  if m.isEmpty then ""
  else
    match propLookup m key with
    | some (.str s) => s
    | _ => ""

/-- Model of `stringProp` (render.go:2570). -/
def stringProp (props : List (String × PropValue)) (key : String) : String :=
  if props.isEmpty then "" else stringFromMap props key

/-- Model of `pageMeta` (render.go:2476). -/
structure pageMeta where
  Title : String
  Description : String
  URL : String
  Canonical : String
  Image : String
  OGType : String

/-- Model of `metaFromProps` (render.go:2518): top-level string props,
optionally overridden by non-empty entries of a nested `meta` map. -/
def metaFromProps (props : List (String × PropValue)) : pageMeta :=
  let meta : pageMeta :=
    { Title := stringProp props "title",
      Description := stringProp props "description",
      URL := stringProp props "url",
      Canonical := stringProp props "canonical",
      Image := stringProp props "image",
      OGType := stringProp props "ogType" }
  match propLookup props "meta" with
  | some (.map raw) =>
      if raw.isEmpty then meta
      else
        let m1 := if stringFromMap raw "title" ≠ "" then
            { meta with Title := stringFromMap raw "title" } else meta
        let m2 := if stringFromMap raw "description" ≠ "" then
            { m1 with Description := stringFromMap raw "description" } else m1
        let m3 := if stringFromMap raw "url" ≠ "" then
            { m2 with URL := stringFromMap raw "url" } else m2
        let m4 := if stringFromMap raw "canonical" ≠ "" then
            { m3 with Canonical := stringFromMap raw "canonical" } else m3
        let m5 := if stringFromMap raw "image" ≠ "" then
            { m4 with Image := stringFromMap raw "image" } else m4
        if stringFromMap raw "ogType" ≠ "" then
          { m5 with OGType := stringFromMap raw "ogType" } else m5
  | _ => meta

/-- Go `html.EscapeString` on one character. -/
def escapeChar (c : Char) : String :=
  if c = '&' then "&amp;"
  else if c = Char.ofNat 39 then "&#39;"
  else if c = '<' then "&lt;"
  else if c = '>' then "&gt;"
  else if c = '"' then "&#34;"
  else String.singleton c

/-- Go `html.EscapeString`. -/
def escapeString (s : String) : String :=
  String.join (s.toList.map escapeChar)

/-- Model of `buildHead` (render.go:2485): the `<head>` contents built
from the page meta. -/
def buildHead (meta : pageMeta) : String :=
  let b1 := "\t<meta charset=\"UTF-8\">" ++
    "\n\t<meta name=\"viewport\" content=\"width=device-width, initial-scale=1.0\">" ++
    "\n\t<title>" ++ escapeString meta.Title ++ "</title>"
  let b2 := if meta.Description ≠ "" then
      b1 ++ "\n\t<meta name=\"description\" content=\"" ++
        escapeString meta.Description ++ "\">" ++
        "\n\t<meta property=\"og:description\" content=\"" ++
        escapeString meta.Description ++ "\">"
    else b1
  let b3 := b2 ++ "\n\t<meta property=\"og:title\" content=\"" ++
    escapeString meta.Title ++ "\">"
  let url := if meta.URL = "" then meta.Canonical else meta.URL
  let b4 := if url ≠ "" then
      b3 ++ "\n\t<link rel=\"canonical\" href=\"" ++ escapeString url ++ "\">" ++
        "\n\t<meta property=\"og:url\" content=\"" ++ escapeString url ++ "\">"
    else b3
  let b5 := if meta.Image ≠ "" then
      b4 ++ "\n\t<meta property=\"og:image\" content=\"" ++
        escapeString meta.Image ++ "\">"
    else b4
  b5 ++ "\n\t<meta property=\"og:type\" content=\"" ++
    escapeString meta.OGType ++ "\">"

/-- Model of `RenderResult` (render.go:2013). -/
structure RenderResult where
  HTML : String
  ClientJS : String
  CSS : String
  Props : List (String × PropValue)
  ClientPath : String
  ClientPaths : List String
  CSSPath : String
  SharedCSS : String

/-- Go `strings.TrimSuffix`. -/
def trimSuffixGo (s suffix : String) : String :=
  if suffix.data.isSuffixOf s.data then s.dropRight suffix.length else s

/-- The module script tags for `ClientPaths` (render.go:2451–2456): one
tag per path, newline-separated, final newline trimmed. -/
def clientPathsScriptTags (paths : List String) : String :=
  trimSuffixGo
    (String.join (paths.map (fun p =>
      "<script type=\"module\" src=\"" ++ p ++ "\"></script>\n")))
    "\n"

/-- The dev-mode live-reload script (render.go:2445–2446). -/
def liveReloadScript : String :=
  "\n\t<script>(function()\x7bif(typeof EventSource===\"undefined\")\x7breturn;\x7dvar es=new EventSource(\"/__live\");es.onmessage=function(ev)\x7bif(ev.data===\"reload\")\x7bwindow.location.reload();\x7d\x7d;es.onerror=function()\x7bes.close();var check=function()\x7bfetch(window.location.href,\x7bcache:\"no-store\"\x7d).then(function()\x7bwindow.location.reload();\x7d).catch(function()\x7bsetTimeout(check,400);\x7d);\x7d;setTimeout(check,400);\x7d;\x7d)();</script>"

/-- The document shell of `RenderResult.ToHTML` (render.go:2463–2473):
head contents, root div with the rendered fragment, the props JSON script
tag, and the trailing script/live-reload section. -/
def docWrap (headCss rootID html propsJSON tail : String) : String :=
  "<!DOCTYPE html>\n<html>\n<head>\n" ++ headCss ++
    "\n</head>\n<body>\n\t<div id=\"" ++ rootID ++ "\">" ++ html ++
    "</div>\n\t<script id=\"" ++ rootID ++
    "-props\" type=\"application/json\">" ++ propsJSON ++
    "</script>\n\t" ++ tail ++ "\n</html>"

/-- Model of `RenderResult.ToHTML` (render.go:2415): the bare fragment
when no client asset is present, else a full HTML document.  `marshal` is
the oracle for `json.Marshal` (whose error `ToHTML` ignores); `devMode`
for `isDevMode()`. -/
def toHTML (marshal : List (String × PropValue) → String) (devMode : Bool)
    (r : RenderResult) (rootID : String) : String :=
  if r.ClientJS = "" ∧ r.ClientPath = "" ∧ r.ClientPaths = [] then r.HTML
  else
    let propsJSON := marshal r.Props
    let meta0 := metaFromProps r.Props
    let meta1 := if meta0.Title = "" then { meta0 with Title := "Page" }
      else meta0
    let meta := if meta1.OGType = "" then { meta1 with OGType := "website" }
      else meta1
    let head := buildHead meta
    let cssTag :=
      (if r.SharedCSS ≠ "" then
        "\n\t<link rel=\"stylesheet\" href=\"" ++ r.SharedCSS ++ "\" />"
       else "") ++
      (if r.CSSPath ≠ "" then
        "\n\t<link rel=\"stylesheet\" href=\"" ++ r.CSSPath ++ "\" />"
       else if r.CSS ≠ "" then "\n\t<style>" ++ r.CSS ++ "</style>"
       else "")
    let liveReload := if devMode then liveReloadScript else ""
    let scriptTag :=
      if r.ClientPaths ≠ [] then clientPathsScriptTags r.ClientPaths
      else if r.ClientPath ≠ "" then
        "<script src=\"" ++ r.ClientPath ++ "\"></script>"
      else if r.ClientJS ≠ "" then "<script>" ++ r.ClientJS ++ "</script>"
      else ""
    docWrap (head ++ cssTag) rootID r.HTML propsJSON
      (scriptTag ++ "\n</body>" ++ liveReload)

/-- C10: when all client assets are absent (`ClientJS`, `ClientPath` and
`ClientPaths` empty), `ToHTML` returns exactly the rendered fragment, no
document wrapper; when at least one is present it returns a full HTML
document embedding the fragment in a div whose id is the root ID, with a
JSON script tag whose id is the root ID suffixed `-props` carrying the
serialized props. -/
theorem C10_toHTML_fragment_or_document
    (marshal : List (String × PropValue) → String) (devMode : Bool)
    (r : RenderResult) (rootID : String) :
    ((r.ClientJS = "" ∧ r.ClientPath = "" ∧ r.ClientPaths = []) →
      toHTML marshal devMode r rootID = r.HTML) ∧
    (¬(r.ClientJS = "" ∧ r.ClientPath = "" ∧ r.ClientPaths = []) →
      ∃ headCss tail,
        toHTML marshal devMode r rootID =
          "<!DOCTYPE html>\n<html>\n<head>\n" ++ headCss ++
            "\n</head>\n<body>\n\t<div id=\"" ++ rootID ++ "\">" ++ r.HTML ++
            "</div>\n\t<script id=\"" ++ rootID ++
            "-props\" type=\"application/json\">" ++ marshal r.Props ++
            "</script>\n\t" ++ tail ++ "\n</html>") := by
  constructor
  · intro h
    unfold toHTML
    rw [if_pos h]
  · intro h
    unfold toHTML
    rw [if_neg h]
    exact ⟨_, _, rfl⟩

/-- C10 witness: a result with no client assets yields the bare fragment;
adding an inline client script yields the full document shape. -/
theorem C10_toHTML_fragment_or_document_witness :
    (toHTML (fun _ => "\x7b\x7d") false
      { HTML := "<p>server only</p>", ClientJS := "", CSS := "",
        Props := [("title", .str "Only")], ClientPath := "",
        ClientPaths := [], CSSPath := "", SharedCSS := "" } "root" =
      "<p>server only</p>") ∧
    (∃ headCss tail,
      toHTML (fun _ => "\x7b\x7d") false
        { HTML := "<div>ok</div>", ClientJS := "console.log(1)", CSS := "",
          Props := [], ClientPath := "", ClientPaths := [], CSSPath := "",
          SharedCSS := "" } "app-root" =
        "<!DOCTYPE html>\n<html>\n<head>\n" ++ headCss ++
          "\n</head>\n<body>\n\t<div id=\"" ++ "app-root" ++ "\">" ++
          "<div>ok</div>" ++ "</div>\n\t<script id=\"" ++ "app-root" ++
          "-props\" type=\"application/json\">" ++
          (fun (_ : List (String × PropValue)) => "\x7b\x7d") [] ++
          "</script>\n\t" ++ tail ++ "\n</html>") :=
  ⟨(C10_toHTML_fragment_or_document (fun _ => "\x7b\x7d") false
      { HTML := "<p>server only</p>", ClientJS := "", CSS := "",
        Props := [("title", .str "Only")], ClientPath := "",
        ClientPaths := [], CSSPath := "", SharedCSS := "" } "root").1
      ⟨rfl, rfl, rfl⟩,
   (C10_toHTML_fragment_or_document (fun _ => "\x7b\x7d") false
      { HTML := "<div>ok</div>", ClientJS := "console.log(1)", CSS := "",
        Props := [], ClientPath := "", ClientPaths := [], CSSPath := "",
        SharedCSS := "" } "app-root").2
      (by simp)⟩
